import Mathlib

/-!
Verification development for the zomabot support agent (src/agent.py,
src/testing.py). The data model, the three tools, the routing function
and the graph wiring are translated from src/agent.py. The graph
executor itself (step loop, recursion bound) lives in the external
langgraph library, so the loop driver below is modelled from the
specification of AgentLoop (states AwaitingModel / ExecutingTools /
Done, a bound on AwaitingModel entries per run).
-/

namespace Zomabot

/-- A tool argument value: the tool schemas in src/agent.py use only
text (str) and integer (int) parameters. -/
inductive ArgVal
  | s (v : String)
  | i (v : Int)
  deriving DecidableEq, Repr

/-- A tool invocation requested by the model: langchain tool_calls carry
an id, a tool name and an argument mapping. -/
structure ToolCall where
  id : String
  name : String
  args : List (String × ArgVal)
  deriving DecidableEq, Repr

/-- Messages of the transcript, after langchain message classes:
SystemMessage, HumanMessage, AIMessage (content plus tool_calls) and
ToolMessage (content plus tool_call_id). -/
inductive Msg
  | system (content : String)
  | human (content : String)
  | ai (content : String) (tool_calls : List ToolCall)
  | tool (content : String) (tool_call_id : String)
  deriving DecidableEq, Repr

/-- The tool_calls attribute: non-empty only on assistant messages
(HumanMessage and ToolMessage never carry tool calls). -/
def Msg.tool_calls : Msg → List ToolCall
  | .ai _ tcs => tcs
  | _ => []

/-- The tool_call_id a ToolMessage answers, none for other roles. -/
def Msg.resultFor : Msg → Option String
  | .tool _ r => some r
  | _ => none

/-- The single-quote character used by the f-strings of src/agent.py
(ASCII 39). -/
def sq : String := String.singleton (Char.ofNat 39)

/-- Translated from src/agent.py process_refund: pure string
formatting, no external dependency; default refund_amount_percentage
is 100. -/
def process_refund (item_name : String) (reason : String)
    (refund_amount_percentage : Int := 100) : String :=
  "SUCCESS: Refund processed for " ++ sq ++ item_name ++ sq ++ ". Reason: "
    ++ reason ++ ". Amount: " ++ toString refund_amount_percentage
    ++ "% credited to wallet."

/-- Translated from src/agent.py contact_delivery_partner: pure string
formatting. -/
def contact_delivery_partner (message : String) : String :=
  "RIDER_ALERT: Message sent to rider -> " ++ sq ++ message ++ sq
    ++ ". Rider will call customer shortly."

/-- The two environment secrets read by escalate_to_support_admin
(os.getenv returns None when a variable is unset). -/
structure TelegramEnv where
  token : Option String
  chatId : Option String
  deriving DecidableEq, Repr

/-- Outcome of the requests.post call: requests returns a response
object carrying a status code for any completed HTTP exchange (it does
not raise on a non-success status), and raises an exception on
transport errors. -/
inductive PostOutcome
  | resp (status : Nat)
  | exc (msg : String)
  deriving DecidableEq, Repr

/-- Python truthiness of an optional string: None and the empty string
are falsy. -/
def truthy : Option String → Bool
  | none => false
  | some s => !(s == "")

/-- Translated from src/agent.py escalate_to_support_admin. The second
component counts network calls performed. When both secrets are truthy
the post is attempted inside try/except: a completed exchange (any
status, the response is never inspected) yields the success text, an
exception yields the failure text embedding the error. Otherwise
simulation mode: no network call. The alert_text payload only feeds
the outbound request body and is not modelled. -/
def escalate_to_support_admin (env : TelegramEnv) (post : PostOutcome)
    (issue_summary : String) (urgency : String) : String × Nat :=
  if truthy env.token && truthy env.chatId then
    match post with
    | .resp _ => ("ESCALATED: Admin has been notified via Telegram channel.", 1)
    | .exc e => ("ESCALATION FAILED: " ++ e, 1)
  else
    ("ESCALATED: Admin notified (Simulation Mode - No Token Found).", 0)

/-- Failures of tool invocation, per the ToolExecutor contract. -/
inductive ToolError
  | UnknownTool (name : String)
  | InvalidArguments (name : String)
  deriving DecidableEq, Repr

/-- First binding of a parameter name in an argument mapping. -/
def lookupArg (args : List (String × ArgVal)) (key : String) : Option ArgVal :=
  match args.find? (fun kv => kv.fst == key) with
  | some kv => some kv.snd
  | none => none

/-- Modelled from the spec: the ToolExecutor invoke contract (the
dispatch and validation machinery lives in the external ToolNode and
pydantic layers, not under src), applied to the parameter schemas
declared by the tool signatures in src/agent.py: process_refund
(item_name : str, reason : str, refund_amount_percentage : int = 100),
contact_delivery_partner (message : str), escalate_to_support_admin
(issue_summary : str, urgency : str). An unregistered name fails with
UnknownTool; a missing required parameter or a wrong-typed value fails
with InvalidArguments. The declared schemas bound no parameter range,
so no range check exists. -/
def invoke (env : TelegramEnv) (post : PostOutcome) (name : String)
    (args : List (String × ArgVal)) : Except ToolError String :=
  if name == "process_refund" then
    match lookupArg args "item_name", lookupArg args "reason" with
    | some (.s itemName), some (.s reason) =>
      match lookupArg args "refund_amount_percentage" with
      | none => .ok (process_refund itemName reason)
      | some (.i pct) => .ok (process_refund itemName reason pct)
      | some (.s _) => .error (.InvalidArguments name)
    | _, _ => .error (.InvalidArguments name)
  else if name == "contact_delivery_partner" then
    match lookupArg args "message" with
    | some (.s message) => .ok (contact_delivery_partner message)
    | _ => .error (.InvalidArguments name)
  else if name == "escalate_to_support_admin" then
    match lookupArg args "issue_summary", lookupArg args "urgency" with
    | some (.s issue), some (.s urgency) =>
      .ok (escalate_to_support_admin env post issue urgency).fst
    | _, _ => .error (.InvalidArguments name)
  else
    .error (.UnknownTool name)

/-- Modelled from the spec: ToolNode surfaces invocation failures as
error text inside an ordinary ToolMessage rather than aborting the
run. -/
def invokeText (env : TelegramEnv) (post : PostOutcome) (name : String)
    (args : List (String × ArgVal)) : String :=
  match invoke env post name args with
  | .ok s => s
  | .error (.UnknownTool n) => "Error: " ++ n ++ " is not a valid tool."
  | .error (.InvalidArguments n) => "Error: invalid arguments for " ++ n ++ "."

/-- What ModelClient.complete returns: an assistant turn, either a
plain answer (empty tool_calls) or a request for tool invocations. -/
structure ModelOut where
  content : String
  tool_calls : List ToolCall
  deriving DecidableEq, Repr

/-- Translated from src/agent.py agent_node: invoke the model on the
current history and wrap the response as an assistant message to be
appended. The model stub is indexed by the number of prior model calls
so that call-numbered test stubs are expressible. -/
def agent_node (model : Nat → List Msg → ModelOut) (k : Nat)
    (messages : List Msg) : Msg :=
  let response := model k messages
  Msg.ai response.content response.tool_calls

/-- The tool calls of the most recent message of the transcript. -/
def lastToolCalls (messages : List Msg) : List ToolCall :=
  match messages.getLast? with
  | some m => m.tool_calls
  | none => []

/-- Translated from src/agent.py tool_node = ToolNode(tools): execute
every tool call of the last assistant message, in order, and wrap each
outcome in a ToolMessage referencing the invocation id. -/
def tool_node (env : TelegramEnv) (post : PostOutcome)
    (messages : List Msg) : List Msg :=
  (lastToolCalls messages).map
    (fun tc => Msg.tool (invokeText env post tc.name tc.args) tc.id)

/-- Routing outcome of should_continue: the tools node, or END. -/
inductive Route
  | tools
  | finish
  deriving DecidableEq, Repr

/-- Translated from src/agent.py should_continue: inspect only the
tool_calls of the last message (Python truthiness of the list); route
to the tools node when non-empty, to END otherwise. -/
def should_continue (messages : List Msg) : Route :=
  match messages.getLast? with
  | some last_message => if last_message.tool_calls ≠ [] then .tools else .finish
  | none => .finish

/-- Run status: normal termination or the loop bound tripped. -/
inductive Status
  | done
  | loopLimitExceeded
  deriving DecidableEq, Repr

/-- Outcome of one agent run: final status, final transcript, the list
of transcripts passed to the model (one per AwaitingModel visit, so
its length is the number of model calls), and the number of tool
executions performed. -/
structure RunOut where
  status : Status
  messages : List Msg
  inputs : List (List Msg)
  toolRuns : Nat
  deriving DecidableEq, Repr

/-- Number of model calls issued during the run. -/
def RunOut.modelCalls (r : RunOut) : Nat := r.inputs.length

/-- Modelled from the spec: the AgentLoop driver (the graph executor is
the external langgraph library; src/agent.py only wires entry point
agent, conditional edges via should_continue, and the edge tools →
agent). Each recursive step is one AwaitingModel visit; fuel is the
number of AwaitingModel entries still allowed, and exhausting it fails
the run with LoopLimitExceeded. acc accumulates the transcripts passed
to the model; truns counts tool executions. -/
def runLoop (env : TelegramEnv) (post : PostOutcome)
    (model : Nat → List Msg → ModelOut) :
    Nat → List (List Msg) → Nat → List Msg → RunOut
  | 0, acc, truns, msgs => ⟨.loopLimitExceeded, msgs, acc, truns⟩
  | fuel + 1, acc, truns, msgs =>
    let response := agent_node model acc.length msgs
    let msgs1 := msgs ++ [response]
    match should_continue msgs1 with
    | .finish => ⟨.done, msgs1, acc ++ [msgs], truns⟩
    | .tools =>
      let trs := tool_node env post msgs1
      runLoop env post model fuel (acc ++ [msgs]) (truns + trs.length) (msgs1 ++ trs)

/-- One agent run: seeded transcript, configured loop limit (the
recursion_limit of src/testing.py), starting in AwaitingModel with no
model calls issued yet. -/
def agentRun (env : TelegramEnv) (post : PostOutcome)
    (model : Nat → List Msg → ModelOut) (limit : Nat)
    (init : List Msg) : RunOut :=
  runLoop env post model limit [] 0 init

/-! Concrete fixtures used by witnesses and counterexamples. -/

/-- Environment with both secrets missing. -/
def envNone : TelegramEnv := ⟨none, none⟩

/-- Environment with both secrets present and truthy. -/
def envBoth : TelegramEnv := ⟨some "tok", some "chat"⟩

/-- A sample refund tool call. -/
def tcW : ToolCall :=
  ⟨"call_1", "process_refund",
   [("item_name", ArgVal.s "Chicken Pizza"), ("reason", ArgVal.s "Burnt")]⟩

/-- C8: if at least one of the two environment secrets is absent,
escalate_to_support_admin performs no network call (counter 0) and
returns the simulation-mode confirmation text. -/
theorem c8_secret_absent_simulation (env : TelegramEnv) (post : PostOutcome)
    (issue urgency : String)
    (h : env.token = none ∨ env.chatId = none) :
    escalate_to_support_admin env post issue urgency =
      ("ESCALATED: Admin notified (Simulation Mode - No Token Found).", 0) := by
  rcases h with h | h <;> simp [escalate_to_support_admin, truthy, h]

/-- Witness for C8 at a concrete input: token absent, chat id present. -/
theorem c8_secret_absent_simulation_witness :
    escalate_to_support_admin ⟨none, some "chat"⟩ (PostOutcome.exc "boom")
      "Gas leak" "high" =
      ("ESCALATED: Admin notified (Simulation Mode - No Token Found).", 0) :=
  c8_secret_absent_simulation ⟨none, some "chat"⟩ (PostOutcome.exc "boom")
    "Gas leak" "high" (Or.inl rfl)

/-- C9: process_refund always succeeds and its success text contains the
three argument values verbatim; through the executor, omitting
refund_amount_percentage defaults it to 100, and passing it uses it. -/
theorem c9_process_refund_verbatim (itemName reason : String) (pct : Int)
    (env : TelegramEnv) (post : PostOutcome) :
    (itemName.data <:+: (process_refund itemName reason pct).data) ∧
    (reason.data <:+: (process_refund itemName reason pct).data) ∧
    ((toString pct).data <:+: (process_refund itemName reason pct).data) ∧
    invoke env post "process_refund"
      [("item_name", ArgVal.s itemName), ("reason", ArgVal.s reason)] =
      Except.ok (process_refund itemName reason 100) ∧
    invoke env post "process_refund"
      [("item_name", ArgVal.s itemName), ("reason", ArgVal.s reason),
       ("refund_amount_percentage", ArgVal.i pct)] =
      Except.ok (process_refund itemName reason pct) := by
  refine ⟨?_, ?_, ?_, rfl, rfl⟩
  · exact ⟨("SUCCESS: Refund processed for " ++ sq).data,
      (sq ++ ". Reason: " ++ reason ++ ". Amount: " ++ toString pct
        ++ "% credited to wallet.").data,
      by simp [process_refund, String.data_append, List.append_assoc]⟩
  · exact ⟨("SUCCESS: Refund processed for " ++ sq ++ itemName ++ sq
        ++ ". Reason: ").data,
      (". Amount: " ++ toString pct ++ "% credited to wallet.").data,
      by simp [process_refund, String.data_append, List.append_assoc]⟩
  · exact ⟨("SUCCESS: Refund processed for " ++ sq ++ itemName ++ sq
        ++ ". Reason: " ++ reason ++ ". Amount: ").data,
      ("% credited to wallet.").data,
      by simp [process_refund, String.data_append, List.append_assoc]⟩

/-- C6 counterexample: a refund_amount_percentage far outside 0..100 is
accepted, not rejected with InvalidArguments — the schemas declared in
src/agent.py bound no parameter range. -/
theorem c6_range_counterexample :
    invoke envNone (PostOutcome.resp 200) "process_refund"
      [("item_name", ArgVal.s "Chicken Pizza"), ("reason", ArgVal.s "Burnt"),
       ("refund_amount_percentage", ArgVal.i 150)] =
      Except.ok (process_refund "Chicken Pizza" "Burnt" 150) ∧
    invoke envNone (PostOutcome.resp 200) "process_refund"
      [("item_name", ArgVal.s "Chicken Pizza"), ("reason", ArgVal.s "Burnt"),
       ("refund_amount_percentage", ArgVal.i 150)] ≠
      Except.error (ToolError.InvalidArguments "process_refund") := by
  refine ⟨rfl, fun h => ?_⟩
  simp only [show invoke envNone (PostOutcome.resp 200) "process_refund"
      [("item_name", ArgVal.s "Chicken Pizza"), ("reason", ArgVal.s "Burnt"),
       ("refund_amount_percentage", ArgVal.i 150)] =
      Except.ok (process_refund "Chicken Pizza" "Burnt" 150) from rfl] at h
  exact Except.noConfusion h

/-- C6 (amended): an unregistered tool name fails with UnknownTool; a
missing required parameter or a wrong-typed value fails with
InvalidArguments; all failures are surfaced in the executor result. -/
theorem c6_invoke_validation (env : TelegramEnv) (post : PostOutcome) :
    (∀ name args, name ∉ (["process_refund", "contact_delivery_partner",
        "escalate_to_support_admin"] : List String) →
      invoke env post name args = Except.error (ToolError.UnknownTool name)) ∧
    (∀ args, lookupArg args "item_name" = none →
      invoke env post "process_refund" args =
        Except.error (ToolError.InvalidArguments "process_refund")) ∧
    (∀ args v, lookupArg args "item_name" = some (ArgVal.i v) →
      invoke env post "process_refund" args =
        Except.error (ToolError.InvalidArguments "process_refund")) ∧
    (∀ args, lookupArg args "message" = none →
      invoke env post "contact_delivery_partner" args =
        Except.error (ToolError.InvalidArguments "contact_delivery_partner")) := by
  refine ⟨?_, ?_, ?_, ?_⟩
  · intro name args h
    simp only [List.mem_cons, List.not_mem_nil, or_false, not_or] at h
    obtain ⟨h1, h2, h3⟩ := h
    simp [invoke, beq_iff_eq, h1, h2, h3]
  · intro args h
    simp [invoke, h]
  · intro args v h
    simp [invoke, h]
  · intro args h
    simp [invoke, h]

/-- Witness for C6 at concrete inputs: an unknown tool name and a
refund invocation missing both required parameters. -/
theorem c6_invoke_validation_witness :
    invoke envNone (PostOutcome.resp 200) "make_coffee" [] =
      Except.error (ToolError.UnknownTool "make_coffee") ∧
    invoke envNone (PostOutcome.resp 200) "process_refund" [] =
      Except.error (ToolError.InvalidArguments "process_refund") :=
  ⟨(c6_invoke_validation envNone (PostOutcome.resp 200)).1 "make_coffee" []
      (by decide),
   (c6_invoke_validation envNone (PostOutcome.resp 200)).2.1 [] rfl⟩

/-- C7 counterexample: with both secrets present, a completed HTTP
exchange with a non-success status (500) yields the success
confirmation, not a failure text — the response status is never
inspected by src/agent.py. -/
theorem c7_status_counterexample :
    escalate_to_support_admin envBoth (PostOutcome.resp 500)
      "App crash" "high" =
      ("ESCALATED: Admin has been notified via Telegram channel.", 1) ∧
    (escalate_to_support_admin envBoth (PostOutcome.resp 500)
      "App crash" "high").fst.data.take 17 ≠ "ESCALATION FAILED".data :=
  ⟨rfl, by decide⟩

/-- C7 (amended): with both secrets present, a transport exception
yields the failure text embedding the error, delivered as an ordinary
executor result (never a fatal error); a completed exchange returns the
success confirmation whatever the status, since the response is never
inspected. -/
theorem c7_transport_failure_swallowed (env : TelegramEnv)
    (issue urgency e : String)
    (htok : truthy env.token = true) (hchat : truthy env.chatId = true) :
    escalate_to_support_admin env (PostOutcome.exc e) issue urgency =
      ("ESCALATION FAILED: " ++ e, 1) ∧
    (∀ st, escalate_to_support_admin env (PostOutcome.resp st) issue urgency =
      ("ESCALATED: Admin has been notified via Telegram channel.", 1)) ∧
    invoke env (PostOutcome.exc e) "escalate_to_support_admin"
      [("issue_summary", ArgVal.s issue), ("urgency", ArgVal.s urgency)] =
      Except.ok ("ESCALATION FAILED: " ++ e) := by
  refine ⟨?_, ?_, ?_⟩ <;>
    simp [escalate_to_support_admin, invoke, lookupArg, htok, hchat]

/-- Witness for C7 at a concrete input: both secrets present, transport
raises. -/
theorem c7_transport_failure_swallowed_witness :
    escalate_to_support_admin envBoth (PostOutcome.exc "timeout")
      "Fire" "high" = ("ESCALATION FAILED: " ++ "timeout", 1) :=
  (c7_transport_failure_swallowed envBoth "Fire" "high" "timeout"
    (by decide) (by decide)).1

/-- C10: routing depends only on the tool_calls of the last message,
never on textual content; an assistant message carrying both an answer
text and tool calls is routed to tool execution. -/
theorem c10_routing_content_blind :
    (∀ (l1 l2 : List Msg) (m1 m2 : Msg), m1.tool_calls = m2.tool_calls →
      should_continue (l1 ++ [m1]) = should_continue (l2 ++ [m2])) ∧
    (∀ (l : List Msg) (c : String) (tcs : List ToolCall), tcs ≠ [] →
      should_continue (l ++ [Msg.ai c tcs]) = Route.tools) := by
  constructor
  · intro l1 l2 m1 m2 h
    simp [should_continue, List.getLast?_concat, h]
  · intro l c tcs h
    simp [should_continue, List.getLast?_concat, Msg.tool_calls, h]

/-- Witness for C10 at concrete inputs: same tool calls under different
content and history route identically, and a mixed answer-plus-tool
message routes to the tools node. -/
theorem c10_routing_content_blind_witness :
    should_continue [Msg.human "hi", Msg.ai "Answer with text" [tcW]] =
      should_continue [Msg.ai "" [tcW]] ∧
    should_continue [Msg.human "hi", Msg.ai "Answer with text" [tcW]] =
      Route.tools :=
  ⟨c10_routing_content_blind.1 [Msg.human "hi"] []
      (Msg.ai "Answer with text" [tcW]) (Msg.ai "" [tcW]) rfl,
   c10_routing_content_blind.2 [Msg.human "hi"] "Answer with text" [tcW]
      (by decide)⟩

/-- A model stub that always requests the sample refund invocation. -/
def alwaysToolModel : Nat → List Msg → ModelOut := fun _ _ => ⟨"", [tcW]⟩

/-- A model stub that always answers plainly. -/
def plainModel : Nat → List Msg → ModelOut :=
  fun _ _ => ⟨"Hello! How can I help?", []⟩

/-- A model stub requesting one tool on the first call and answering
plainly from the second call on. -/
def twoStepModel : Nat → List Msg → ModelOut := fun k _ =>
  if k = 0 then ⟨"", [tcW]⟩ else ⟨"Refund issued!", []⟩

/-- Routing ignores every message before the last. -/
theorem should_continue_append_cons (l : List Msg) (m : Msg) (ms : List Msg) :
    should_continue (l ++ m :: ms) = should_continue (m :: ms) := by
  unfold should_continue
  rw [List.getLast?_append_cons]

/-- Routing ignores the head of a two-or-more message transcript. -/
theorem should_continue_cons_cons (a b : Msg) (l : List Msg) :
    should_continue (a :: b :: l) = should_continue (b :: l) := by
  simp [should_continue, List.getLast?_cons_cons]

/-- Routing on a single message inspects its tool_calls. -/
theorem should_continue_singleton (m : Msg) :
    should_continue [m] = if m.tool_calls ≠ [] then Route.tools
      else Route.finish := rfl

/-- The executed tool calls ignore every message before the last. -/
theorem lastToolCalls_append_cons (l : List Msg) (m : Msg) (ms : List Msg) :
    lastToolCalls (l ++ m :: ms) = lastToolCalls (m :: ms) := by
  unfold lastToolCalls
  rw [List.getLast?_append_cons]

/-- The executed tool calls ignore the head of a longer transcript. -/
theorem lastToolCalls_cons_cons (a b : Msg) (l : List Msg) :
    lastToolCalls (a :: b :: l) = lastToolCalls (b :: l) := by
  simp [lastToolCalls, List.getLast?_cons_cons]

/-- The executed tool calls of a single-message transcript. -/
theorem lastToolCalls_singleton (m : Msg) :
    lastToolCalls [m] = m.tool_calls := rfl

/-- With a model that always requests tools, every AwaitingModel visit
consumes one fuel unit and issues exactly one model call, so the run
exhausts its fuel with LoopLimitExceeded. -/
theorem runLoop_always_tools (env : TelegramEnv) (post : PostOutcome)
    (model : Nat → List Msg → ModelOut)
    (h : ∀ k m, (model k m).tool_calls ≠ []) :
    ∀ fuel acc truns msgs,
      (runLoop env post model fuel acc truns msgs).status =
        Status.loopLimitExceeded ∧
      (runLoop env post model fuel acc truns msgs).inputs.length =
        acc.length + fuel := by
  intro fuel
  induction fuel with
  | zero => intro acc truns msgs; exact ⟨rfl, rfl⟩
  | succ f ih =>
    intro acc truns msgs
    have hroute :
        should_continue (msgs ++ [agent_node model acc.length msgs]) =
          Route.tools := by
      simp [should_continue, List.getLast?_concat, agent_node, Msg.tool_calls,
        h acc.length msgs]
    simp only [runLoop, hroute]
    refine ⟨(ih _ _ _).1, ?_⟩
    rw [(ih _ _ _).2]
    simp
    omega

/-- C2: for a model stub that on every call requests at least one tool
invocation, the run fails with LoopLimitExceeded and issues exactly the
configured limit of model calls (AwaitingModel visits), none beyond. -/
theorem c2_loop_limit (env : TelegramEnv) (post : PostOutcome)
    (model : Nat → List Msg → ModelOut) (limit : Nat) (init : List Msg)
    (h : ∀ k m, (model k m).tool_calls ≠ []) :
    (agentRun env post model limit init).status = Status.loopLimitExceeded ∧
    (agentRun env post model limit init).modelCalls = limit := by
  have hrun := runLoop_always_tools env post model h limit [] 0 init
  exact ⟨hrun.1, by simpa [agentRun, RunOut.modelCalls] using hrun.2⟩

/-- Witness for C2 at a concrete input: the always-tool stub, limit 2,
a two-message seed. -/
theorem c2_loop_limit_witness :
    (agentRun envNone (PostOutcome.resp 200) alwaysToolModel 2
      [Msg.system "sys", Msg.human "hi"]).status = Status.loopLimitExceeded ∧
    (agentRun envNone (PostOutcome.resp 200) alwaysToolModel 2
      [Msg.system "sys", Msg.human "hi"]).modelCalls = 2 :=
  c2_loop_limit envNone (PostOutcome.resp 200) alwaysToolModel 2
    [Msg.system "sys", Msg.human "hi"]
    (fun _ _ => by simp [alwaysToolModel])

/-- C5: when the first model call returns a plain answer, the run ends
Done after exactly one AwaitingModel visit, performs no tool execution,
and the transcript grows by exactly one message. -/
theorem c5_plain_answer_one_visit (env : TelegramEnv) (post : PostOutcome)
    (model : Nat → List Msg → ModelOut) (limit : Nat) (init : List Msg)
    (h0 : (model 0 init).tool_calls = []) (hl : 1 ≤ limit) :
    (agentRun env post model limit init).status = Status.done ∧
    (agentRun env post model limit init).modelCalls = 1 ∧
    (agentRun env post model limit init).toolRuns = 0 ∧
    (agentRun env post model limit init).messages.length = init.length + 1 := by
  obtain ⟨f, rfl⟩ : ∃ f, limit = f + 1 := ⟨limit - 1, by omega⟩
  have hroute :
      should_continue (init ++ [agent_node model 0 init]) = Route.finish := by
    simp [should_continue, List.getLast?_concat, agent_node, Msg.tool_calls, h0]
  refine ⟨?_, ?_, ?_, ?_⟩ <;>
    simp [agentRun, runLoop, hroute, RunOut.modelCalls]

/-- Witness for C5 at a concrete input: the plain-answer stub, limit 1,
a two-message seed. -/
theorem c5_plain_answer_one_visit_witness :
    (agentRun envNone (PostOutcome.resp 200) plainModel 1
      [Msg.system "sys", Msg.human "hi"]).status = Status.done ∧
    (agentRun envNone (PostOutcome.resp 200) plainModel 1
      [Msg.system "sys", Msg.human "hi"]).modelCalls = 1 ∧
    (agentRun envNone (PostOutcome.resp 200) plainModel 1
      [Msg.system "sys", Msg.human "hi"]).toolRuns = 0 ∧
    (agentRun envNone (PostOutcome.resp 200) plainModel 1
      [Msg.system "sys", Msg.human "hi"]).messages.length =
      ([Msg.system "sys", Msg.human "hi"] : List Msg).length + 1 :=
  c5_plain_answer_one_visit envNone (PostOutcome.resp 200) plainModel 1
    [Msg.system "sys", Msg.human "hi"] rfl (by decide)

/-- C4: with a model stub requesting exactly one tool invocation on its
first call and answering plainly on its second, the run ends Done with
exactly one tool execution, two model calls, and a transcript exactly
three messages longer than the seed. -/
theorem c4_one_tool_roundtrip (env : TelegramEnv) (post : PostOutcome)
    (model : Nat → List Msg → ModelOut) (limit : Nat) (init : List Msg)
    (tc : ToolCall)
    (h0 : (model 0 init).tool_calls = [tc])
    (h1 : ∀ m, (model 1 m).tool_calls = [])
    (hl : 2 ≤ limit) :
    (agentRun env post model limit init).status = Status.done ∧
    (agentRun env post model limit init).toolRuns = 1 ∧
    (agentRun env post model limit init).messages.length = init.length + 3 ∧
    (agentRun env post model limit init).modelCalls = 2 := by
  obtain ⟨f, rfl⟩ : ∃ f, limit = f + 2 := ⟨limit - 2, by omega⟩
  refine ⟨?_, ?_, ?_, ?_⟩ <;>
    simp [agentRun, runLoop, tool_node, should_continue_append_cons,
      should_continue_cons_cons, should_continue_singleton,
      lastToolCalls_append_cons, lastToolCalls_cons_cons,
      lastToolCalls_singleton, agent_node, Msg.tool_calls, h0, h1,
      RunOut.modelCalls, List.length_append]

/-- Witness for C4 at a concrete input: the two-step stub, limit 10, a
two-message seed. -/
theorem c4_one_tool_roundtrip_witness :
    (agentRun envNone (PostOutcome.resp 200) twoStepModel 10
      [Msg.system "sys", Msg.human "hi"]).status = Status.done ∧
    (agentRun envNone (PostOutcome.resp 200) twoStepModel 10
      [Msg.system "sys", Msg.human "hi"]).toolRuns = 1 ∧
    (agentRun envNone (PostOutcome.resp 200) twoStepModel 10
      [Msg.system "sys", Msg.human "hi"]).messages.length =
      ([Msg.system "sys", Msg.human "hi"] : List Msg).length + 3 ∧
    (agentRun envNone (PostOutcome.resp 200) twoStepModel 10
      [Msg.system "sys", Msg.human "hi"]).modelCalls = 2 :=
  c4_one_tool_roundtrip envNone (PostOutcome.resp 200) twoStepModel 10
    [Msg.system "sys", Msg.human "hi"] tcW rfl (fun _ => rfl) (by decide)

/-- One AwaitingModel step when the model answers plainly: the run ends
Done at once, with the answer appended and nothing else changed. -/
theorem runLoop_succ_finish (env : TelegramEnv) (post : PostOutcome)
    (model : Nat → List Msg → ModelOut) (fuel : Nat) (acc : List (List Msg))
    (truns : Nat) (msgs : List Msg)
    (hout : (model acc.length msgs).tool_calls = []) :
    runLoop env post model (fuel + 1) acc truns msgs =
      ⟨Status.done, msgs ++ [Msg.ai (model acc.length msgs).content []],
       acc ++ [msgs], truns⟩ := by
  simp [runLoop, should_continue_append_cons, should_continue_singleton,
    agent_node, Msg.tool_calls, hout]

/-- One AwaitingModel step when the model requests tools: the assistant
turn and one ToolResult per requested invocation are appended, then the
loop returns to AwaitingModel. -/
theorem runLoop_succ_tools (env : TelegramEnv) (post : PostOutcome)
    (model : Nat → List Msg → ModelOut) (fuel : Nat) (acc : List (List Msg))
    (truns : Nat) (msgs : List Msg)
    (hout : (model acc.length msgs).tool_calls ≠ []) :
    runLoop env post model (fuel + 1) acc truns msgs =
      runLoop env post model fuel (acc ++ [msgs])
        (truns + ((model acc.length msgs).tool_calls).length)
        ((msgs ++ [Msg.ai (model acc.length msgs).content
            ((model acc.length msgs).tool_calls)]) ++
          ((model acc.length msgs).tool_calls).map
            (fun tc => Msg.tool (invokeText env post tc.name tc.args) tc.id)) := by
  simp [runLoop, should_continue_append_cons, should_continue_singleton,
    tool_node, lastToolCalls_append_cons, lastToolCalls_singleton,
    agent_node, Msg.tool_calls, hout]

/-- Shape of any run ending Done, relative to an arbitrary loop
configuration: the seed transcripts already consumed stay a prefix of
the model-input log, the final model output is the plain answer that is
appended as the last message, and every earlier model output requested
tools. -/
theorem runLoop_done_shape (env : TelegramEnv) (post : PostOutcome)
    (model : Nat → List Msg → ModelOut) :
    ∀ fuel (acc : List (List Msg)) (truns : Nat) (msgs : List Msg)
      (r : RunOut), runLoop env post model fuel acc truns msgs = r →
      r.status = Status.done →
      acc <+: r.inputs ∧ acc.length < r.inputs.length ∧
      (∃ l, r.inputs.getLast? = some l ∧
        (model (r.inputs.length - 1) l).tool_calls = [] ∧
        r.messages =
          l ++ [Msg.ai (model (r.inputs.length - 1) l).content []]) ∧
      (∀ k m, acc.length ≤ k → k + 1 < r.inputs.length →
        r.inputs[k]? = some m → (model k m).tool_calls ≠ []) := by
  intro fuel
  induction fuel with
  | zero =>
    intro acc truns msgs r hr hdone
    subst hr
    simp [runLoop] at hdone
  | succ f ih =>
    intro acc truns msgs r hr hdone
    by_cases hout : (model acc.length msgs).tool_calls = []
    · rw [runLoop_succ_finish env post model f acc truns msgs hout] at hr
      subst hr
      refine ⟨List.prefix_append acc [msgs], by simp, ⟨msgs, ?_, ?_, ?_⟩, ?_⟩
      · simp [List.getLast?_concat]
      · simpa using hout
      · simp
      · intro k m hk hk2 hget
        simp at hk2
        omega
    · rw [runLoop_succ_tools env post model f acc truns msgs hout] at hr
      obtain ⟨hpre, hlen, hex, hall⟩ := ih _ _ _ r hr hdone
      have hlen1 : (acc ++ [msgs]).length = acc.length + 1 := by simp
      refine ⟨(List.prefix_append acc [msgs]).trans hpre, by omega, hex, ?_⟩
      intro k m hk hk2 hget
      rcases Nat.lt_or_ge k (acc ++ [msgs]).length with hlt | hge
      · have hk_eq : k = acc.length := by omega
        subst hk_eq
        obtain ⟨t, ht⟩ := hpre
        rw [← ht, List.getElem?_append_left (by simp),
          List.getElem?_concat_length] at hget
        injection hget with hm
        subst hm
        exact hout
      · exact hall k m (by omega) hk2 hget

/-- C1: a run ends Done exactly when a model output carries no tool
invocations: the final transcript is the last model input plus that
plain assistant answer (appended, returned whole, with no model call or
tool execution after it), and every model output before the last one
requested at least one tool. -/
theorem c1_done_iff_plain_answer (env : TelegramEnv) (post : PostOutcome)
    (model : Nat → List Msg → ModelOut) (limit : Nat) (init : List Msg)
    (hdone : (agentRun env post model limit init).status = Status.done) :
    ∃ l, (agentRun env post model limit init).inputs.getLast? = some l ∧
      (model ((agentRun env post model limit init).inputs.length - 1)
        l).tool_calls = [] ∧
      (agentRun env post model limit init).messages =
        l ++ [Msg.ai (model
          ((agentRun env post model limit init).inputs.length - 1)
          l).content []] ∧
      ∀ k m, k + 1 < (agentRun env post model limit init).inputs.length →
        (agentRun env post model limit init).inputs[k]? = some m →
        (model k m).tool_calls ≠ [] := by
  obtain ⟨-, -, ⟨l, h1, h2, h3⟩, h4⟩ :=
    runLoop_done_shape env post model limit [] 0 init _ rfl hdone
  exact ⟨l, h1, h2, h3, fun k m hk hget => h4 k m (Nat.zero_le k) hk hget⟩

/-- Witness for C1 at a concrete input: the plain-answer stub ends the
run at its first turn. -/
theorem c1_done_iff_plain_answer_witness :
    ∃ l, (agentRun envNone (PostOutcome.resp 200) plainModel 1
        [Msg.human "hi"]).inputs.getLast? = some l ∧
      (plainModel ((agentRun envNone (PostOutcome.resp 200) plainModel 1
        [Msg.human "hi"]).inputs.length - 1) l).tool_calls = [] ∧
      (agentRun envNone (PostOutcome.resp 200) plainModel 1
        [Msg.human "hi"]).messages =
        l ++ [Msg.ai (plainModel
          ((agentRun envNone (PostOutcome.resp 200) plainModel 1
            [Msg.human "hi"]).inputs.length - 1) l).content []] ∧
      ∀ k m, k + 1 < (agentRun envNone (PostOutcome.resp 200) plainModel 1
          [Msg.human "hi"]).inputs.length →
        (agentRun envNone (PostOutcome.resp 200) plainModel 1
          [Msg.human "hi"]).inputs[k]? = some m →
        (plainModel k m).tool_calls ≠ [] :=
  c1_done_iff_plain_answer envNone (PostOutcome.resp 200) plainModel 1
    [Msg.human "hi"] rfl

/-- All invocation ids of the transcript, in order of appearance. -/
def invocationIds : List Msg → List String
  | [] => []
  | m :: rest => m.tool_calls.map ToolCall.id ++ invocationIds rest

/-- invocationIds distributes over transcript concatenation. -/
theorem invocationIds_append (a b : List Msg) :
    invocationIds (a ++ b) = invocationIds a ++ invocationIds b := by
  induction a with
  | nil => simp [invocationIds]
  | cons m rest ih => simp [invocationIds, ih]

/-- An invocation of a member message contributes its id. -/
theorem mem_invocationIds_of_mem (t : List Msg) (m : Msg) (tc : ToolCall)
    (hmem : m ∈ t) (htc : tc ∈ m.tool_calls) : tc.id ∈ invocationIds t := by
  induction t with
  | nil => cases hmem
  | cons a rest ih =>
    simp only [invocationIds, List.mem_append]
    rcases List.mem_cons.mp hmem with rfl | hmem2
    · exact Or.inl (List.mem_map_of_mem ToolCall.id htc)
    · exact Or.inr (ih hmem2)

/-- Whether a message is the ToolResult answering the given id. -/
def Msg.isResultFor (m : Msg) (tcid : String) : Bool :=
  match m with
  | .tool _ r => r == tcid
  | _ => false

/-- Every invocation of any assistant message of the transcript is
answered by exactly one ToolResult later in the transcript. -/
def AnsweredOnce (t : List Msg) : Prop :=
  ∀ i m, t[i]? = some m → ∀ tc ∈ m.tool_calls,
    (t.drop (i + 1)).countP (fun x => x.isResultFor tc.id) = 1

/-- Every ToolResult of the transcript answers an invocation of an
earlier assistant message. -/
def ResultsMatched (t : List Msg) : Prop :=
  ∀ j m r, t[j]? = some m → m.resultFor = some r →
    r ∈ invocationIds (t.take j)

/-- Referential integrity of a transcript. -/
def Integrity (t : List Msg) : Prop := AnsweredOnce t ∧ ResultsMatched t

/-- The invocation id discipline the data model postulates: ids of one
assistant turn are pairwise distinct and fresh for the transcript the
model was shown. -/
def FreshIds (model : Nat → List Msg → ModelOut) : Prop :=
  ∀ k m, ((model k m).tool_calls.map ToolCall.id).Nodup ∧
    ∀ tc ∈ (model k m).tool_calls, tc.id ∉ invocationIds m

/-- A transcript with neither invocations nor results has referential
integrity. -/
theorem integrity_of_no_tools (t : List Msg)
    (h : ∀ m ∈ t, m.tool_calls = [] ∧ m.resultFor = none) : Integrity t := by
  constructor
  · intro i m hget tc htc
    rw [(h m (List.getElem?_mem hget)).1] at htc
    cases htc
  · intro j m r hget hres
    rw [(h m (List.getElem?_mem hget)).2] at hres
    cases hres

/-- Appending one assistant turn followed by exactly the ToolResults it
calls for, with fresh and pairwise-distinct invocation ids, preserves
referential integrity. -/
theorem integrity_extend (env : TelegramEnv) (post : PostOutcome)
    (t : List Msg) (c : String) (tcs : List ToolCall)
    (ht : Integrity t)
    (hnodup : (tcs.map ToolCall.id).Nodup)
    (hfresh : ∀ tc ∈ tcs, tc.id ∉ invocationIds t) :
    Integrity ((t ++ [Msg.ai c tcs]) ++
      tcs.map (fun tc => Msg.tool (invokeText env post tc.name tc.args)
        tc.id)) := by
  obtain ⟨hA, hR⟩ := ht
  set R := tcs.map
    (fun tc => Msg.tool (invokeText env post tc.name tc.args) tc.id)
    with hRdef
  constructor
  · intro i m hget tc htc
    rcases Nat.lt_trichotomy i t.length with hlt | heq | hgt
    · have hget_t : t[i]? = some m := by
        rw [List.getElem?_append_left (show i < (t ++ [Msg.ai c tcs]).length
              by simp; omega),
          List.getElem?_append_left hlt] at hget
        exact hget
      have hdrop : ((t ++ [Msg.ai c tcs]) ++ R).drop (i + 1) =
          t.drop (i + 1) ++ ([Msg.ai c tcs] ++ R) := by
        rw [List.append_assoc, List.drop_append_eq_append_drop,
          Nat.sub_eq_zero_of_le (by omega), List.drop_zero]
      have htc_id : tc.id ∈ invocationIds t :=
        mem_invocationIds_of_mem t m tc (List.getElem?_mem hget_t) htc
      have hcR : R.countP (fun x => x.isResultFor tc.id) = 0 := by
        rw [List.countP_eq_zero]
        intro x hx
        obtain ⟨tc2, htc2, rfl⟩ := List.mem_map.mp hx
        simp only [Msg.isResultFor, beq_iff_eq]
        intro hid
        exact hfresh tc2 htc2 (by rw [hid]; exact htc_id)
      rw [hdrop, List.countP_append, List.countP_append,
        hA i m hget_t tc htc, hcR]
      simp [List.countP_cons, Msg.isResultFor]
    · subst heq
      rw [List.getElem?_append_left
          (show t.length < (t ++ [Msg.ai c tcs]).length by simp),
        List.getElem?_concat_length] at hget
      have hm : m = Msg.ai c tcs := (Option.some.inj hget).symm
      subst hm
      simp only [Msg.tool_calls] at htc
      have hdrop : ((t ++ [Msg.ai c tcs]) ++ R).drop (t.length + 1) = R := by
        rw [List.drop_append_eq_append_drop]
        simp
      rw [hdrop]
      have hmem_id : tc.id ∈ tcs.map ToolCall.id :=
        List.mem_map_of_mem ToolCall.id htc
      calc R.countP (fun x => x.isResultFor tc.id)
          = (tcs.map ToolCall.id).countP (fun s => s == tc.id) := by
            rw [hRdef, List.countP_map, List.countP_map]
            rfl
        _ = (tcs.map ToolCall.id).count tc.id := rfl
        _ = 1 := List.count_eq_one_of_mem hnodup hmem_id
    · have hmem : m ∈ R := by
        rw [List.getElem?_append_right
          (show (t ++ [Msg.ai c tcs]).length ≤ i by simp; omega)] at hget
        exact List.getElem?_mem hget
      obtain ⟨tc2, -, rfl⟩ := List.mem_map.mp hmem
      simp only [Msg.tool_calls] at htc
      cases htc
  · intro j m r hget hres
    rcases Nat.lt_trichotomy j t.length with hlt | heq | hgt
    · have hget_t : t[j]? = some m := by
        rw [List.getElem?_append_left (show j < (t ++ [Msg.ai c tcs]).length
              by simp; omega),
          List.getElem?_append_left hlt] at hget
        exact hget
      have htake : ((t ++ [Msg.ai c tcs]) ++ R).take j = t.take j := by
        rw [List.take_append_eq_append_take,
          Nat.sub_eq_zero_of_le
            (show j ≤ (t ++ [Msg.ai c tcs]).length by simp; omega),
          List.take_zero, List.append_nil, List.take_append_eq_append_take,
          Nat.sub_eq_zero_of_le (show j ≤ t.length by omega),
          List.take_zero, List.append_nil]
      rw [htake]
      exact hR j m r hget_t hres
    · subst heq
      rw [List.getElem?_append_left
          (show t.length < (t ++ [Msg.ai c tcs]).length by simp),
        List.getElem?_concat_length] at hget
      have hm : m = Msg.ai c tcs := (Option.some.inj hget).symm
      subst hm
      simp [Msg.resultFor] at hres
    · have hgetR : R[j - (t ++ [Msg.ai c tcs]).length]? = some m := by
        rw [List.getElem?_append_right
          (show (t ++ [Msg.ai c tcs]).length ≤ j by simp; omega)] at hget
        exact hget
      obtain ⟨tc2, htc2, rfl⟩ := List.mem_map.mp (List.getElem?_mem hgetR)
      simp only [Msg.resultFor, Option.some.injEq] at hres
      subst hres
      have htake : ((t ++ [Msg.ai c tcs]) ++ R).take j =
          (t ++ [Msg.ai c tcs]) ++
            R.take (j - (t ++ [Msg.ai c tcs]).length) := by
        rw [List.take_append_eq_append_take,
          List.take_of_length_le
            (show (t ++ [Msg.ai c tcs]).length ≤ j by simp; omega)]
      rw [htake, invocationIds_append, invocationIds_append]
      refine List.mem_append_left _ (List.mem_append_right _ ?_)
      simp only [invocationIds, Msg.tool_calls, List.append_nil]
      exact List.mem_map_of_mem ToolCall.id htc2

/-- Loop invariant: starting from a transcript with referential
integrity, under the id discipline, every transcript handed to the
model has referential integrity, and so does the final transcript of a
run that ends Done. -/
theorem runLoop_integrity (env : TelegramEnv) (post : PostOutcome)
    (model : Nat → List Msg → ModelOut) (hm : FreshIds model) :
    ∀ fuel (acc : List (List Msg)) (truns : Nat) (msgs : List Msg),
      Integrity msgs → (∀ inp ∈ acc, Integrity inp) →
      (∀ inp ∈ (runLoop env post model fuel acc truns msgs).inputs,
        Integrity inp) ∧
      ((runLoop env post model fuel acc truns msgs).status = Status.done →
        Integrity (runLoop env post model fuel acc truns msgs).messages) := by
  intro fuel
  induction fuel with
  | zero =>
    intro acc truns msgs hint hacc
    constructor
    · simpa [runLoop] using hacc
    · intro hdone
      simp [runLoop] at hdone
  | succ f ih =>
    intro acc truns msgs hint hacc
    by_cases hout : (model acc.length msgs).tool_calls = []
    · rw [runLoop_succ_finish env post model f acc truns msgs hout]
      constructor
      · intro inp hinp
        rcases List.mem_append.mp hinp with h | h
        · exact hacc inp h
        · rw [List.mem_singleton] at h
          subst h
          exact hint
      · intro _
        have hext := integrity_extend env post msgs
          (model acc.length msgs).content [] hint (by simp) (by simp)
        simpa using hext
    · rw [runLoop_succ_tools env post model f acc truns msgs hout]
      apply ih
      · exact integrity_extend env post msgs (model acc.length msgs).content
          (model acc.length msgs).tool_calls hint (hm acc.length msgs).1
          (fun tc htc => (hm acc.length msgs).2 tc htc)
      · intro inp hinp
        rcases List.mem_append.mp hinp with h | h
        · exact hacc inp h
        · rw [List.mem_singleton] at h
          subst h
          exact hint

/-- C3: in every run that ends Done (from a seed with integrity, under
the id discipline of the data model) the final transcript has
referential integrity — every invocation answered by exactly one later
ToolResult, every ToolResult matching an earlier invocation — and every
transcript handed to the model already had all prior invocations
answered. -/
theorem c3_referential_integrity (env : TelegramEnv) (post : PostOutcome)
    (model : Nat → List Msg → ModelOut) (limit : Nat) (init : List Msg)
    (hm : FreshIds model) (hinit : Integrity init)
    (hdone : (agentRun env post model limit init).status = Status.done) :
    Integrity (agentRun env post model limit init).messages ∧
    ∀ inp ∈ (agentRun env post model limit init).inputs, Integrity inp := by
  have hrun := runLoop_integrity env post model hm limit [] 0 init hinit
    (by intro inp hinp; cases hinp)
  exact ⟨hrun.2 hdone, hrun.1⟩

/-- A model stub for the C3 witness: requests one rider-contact tool on
the first call (with an id fresh by construction), then answers
plainly. -/
def c3Model : Nat → List Msg → ModelOut := fun k m =>
  if k = 0 ∧ "call_1" ∉ invocationIds m then
    ⟨"", [⟨"call_1", "contact_delivery_partner",
      [("message", ArgVal.s "Customer asks where you are")]⟩]⟩
  else ⟨"Rider contacted. Anything else?", []⟩

/-- The witness stub observes the invocation id discipline. -/
theorem c3Model_freshIds : FreshIds c3Model := by
  intro k m
  unfold c3Model
  split
  · next h =>
    refine ⟨by simp, ?_⟩
    intro tc htc
    rw [List.mem_singleton] at htc
    subst htc
    exact h.2
  · simp

/-- Witness for C3 at a concrete input: a run of the witness stub with
one tool round-trip ending Done. -/
theorem c3_referential_integrity_witness :
    Integrity (agentRun envNone (PostOutcome.resp 200) c3Model 10
      [Msg.system "You are ZomaBot.",
       Msg.human "Where is my order?"]).messages ∧
    ∀ inp ∈ (agentRun envNone (PostOutcome.resp 200) c3Model 10
      [Msg.system "You are ZomaBot.",
       Msg.human "Where is my order?"]).inputs, Integrity inp :=
  c3_referential_integrity envNone (PostOutcome.resp 200) c3Model 10
    [Msg.system "You are ZomaBot.", Msg.human "Where is my order?"]
    c3Model_freshIds
    (integrity_of_no_tools _ (by decide))
    rfl

end Zomabot
